import Mathlib

/-!
Shallow embedding of the `pallet-artists-v2` core (files `src/lib.rs`,
`src/types.rs`).

Conventions of the embedding:
* account ids are `Nat`, block numbers are `Nat`, music genres are `Nat`
  (the genre enum is an external registry; only decidable equality of tags
  matters here);
* byte sequences are `List Nat`; the external collision-resistant hasher
  `T::Hashing::hash` is an explicit function parameter `H : List Nat → Nat`;
* `BoundedVec<_, N>` values are plain lists; pushing performs the explicit
  capacity check that `try_push` performs, and bounds guaranteed by the
  Rust type of an extrinsic argument become hypotheses of theorems;
* Rust methods taking `&mut self` and returning `Result` are embedded as
  functions returning `Artist × Except Err Unit`: the first component is the
  record exactly as the method leaves it (including on the error paths), so
  that in-place-mutation behaviour is preserved, not assumed away;
* a dispatchable returning `Err` rolls the whole transaction back
  (Substrate extrinsic semantics; `try_mutate` likewise writes only on `Ok`),
  so the pallet-level operations return `Except Err PalletState`.
-/

/-- Errors of the pallet (`Error<T>` in `lib.rs`), plus the collaborator
error surfaced by `Currency::reserve`. -/
inductive Err where
  | NotUniqueGenre
  | NotUniqueAsset
  | NameUnavailable
  | NotRegistered
  | AlreadyRegistered
  | IsVerified
  | PeriodNotPassed
  | Full
  | NotFound
  | InsufficientBalance
  deriving DecidableEq, Repr

/-- `UpdatableDataVec<T>` from `types.rs`. -/
inductive UpdatableDataVec (α : Type) where
  | Add (x : α)
  | Remove (x : α)
  | Clear
  deriving DecidableEq, Repr

/-- `UpdatableData<ArtistAlias>` from `types.rs`: one tagged field update. -/
inductive UpdatableData where
  | Alias (x : Option (List Nat))
  | Genres (x : UpdatableDataVec Nat)
  | Description (x : Option (List Nat))
  | Assets (x : UpdatableDataVec (List Nat))
  deriving DecidableEq, Repr

/-- The configurable constants of the pallet (`Config` in `lib.rs`). -/
structure Config where
  baseDeposit : Nat
  unregisterPeriod : Nat
  maxNameLen : Nat
  maxGenres : Nat
  maxAssets : Nat
  deriving DecidableEq, Repr

/-- The on-chain artist record (`Artist<T>` in `types.rs`). -/
structure Artist where
  owner : Nat
  registered_at : Nat
  verified_at : Option Nat
  main_name : List Nat
  alias_ : Option (List Nat)
  genres : List Nat
  description : Option Nat
  assets : List Nat
  contracts : List Nat
  deriving DecidableEq, Repr

namespace Artist

/-- `Artist::new`: build a fresh record at the current block; genres start
empty (set later by the checked setter), `verified_at` starts `None`. -/
def new (owner : Nat) (current_block : Nat) (main_name : List Nat)
    (alias_ : Option (List Nat)) (description : Option Nat)
    (assets : List Nat) (contracts : List Nat) : Artist :=
  { owner := owner
    registered_at := current_block
    verified_at := none
    main_name := main_name
    alias_ := alias_
    genres := []
    description := description
    assets := assets
    contracts := contracts }

/-- The `BTreeSet` duplicate scan inside `set_checked_genres`: walk the
list with a seen-set, report `true` on the first repeated element. -/
def hasDupAux (seen : List Nat) : List Nat → Bool
  | [] => false
  | g :: rest => if seen.contains g then true else hasDupAux (g :: seen) rest

/-- `Artist::set_checked_genres`: reject a list with a repeated tag with
`NotUniqueGenre`, otherwise overwrite `genres` with it. -/
def set_checked_genres (a : Artist) (genres : List Nat) :
    Artist × Except Err Unit :=
  if hasDupAux [] genres then (a, .error .NotUniqueGenre)
  else ({ a with genres := genres }, .ok ())

/-- `Artist::add_checked_genres`: `try_push` onto a clone of `genres`
(`Full` at capacity), then run the checked setter on the extended list. -/
def add_checked_genres (cfg : Config) (a : Artist) (genre : Nat) :
    Artist × Except Err Unit :=
  if a.genres.length < cfg.maxGenres then
    set_checked_genres a (a.genres ++ [genre])
  else (a, .error .Full)

/-- `Artist::remove_genre`: remove the first element equal to the tag,
`NotFound` when absent. -/
def remove_genre (a : Artist) (genre : Nat) : Artist × Except Err Unit :=
  if a.genres.contains genre then
    ({ a with genres := a.genres.erase genre }, .ok ())
  else (a, .error .NotFound)

/-- `Artist::set_alias`: unconditional replacement. -/
def set_alias (a : Artist) (alias_ : Option (List Nat)) : Artist :=
  { a with alias_ := alias_ }

/-- `Artist::set_description`: hash the raw bytes if present, clear if not. -/
def set_description (H : List Nat → Nat) (a : Artist)
    (raw_description : Option (List Nat)) : Artist :=
  match raw_description with
  | some x => { a with description := some (H x) }
  | none => { a with description := none }

/-- `Artist::add_asset`: hash the bytes and `try_push` the fingerprint,
`Full` at capacity. No duplicate check at this call site. -/
def add_asset (H : List Nat → Nat) (cfg : Config) (a : Artist)
    (asset : List Nat) : Artist × Except Err Unit :=
  let hash := H asset
  if a.assets.length < cfg.maxAssets then
    ({ a with assets := a.assets ++ [hash] }, .ok ())
  else (a, .error .Full)

/-- `Artist::remove_asset`: hash the bytes, remove the first matching
fingerprint, `NotFound` when absent. -/
def remove_asset (H : List Nat → Nat) (a : Artist) (asset : List Nat) :
    Artist × Except Err Unit :=
  let hash := H asset
  if a.assets.contains hash then
    ({ a with assets := a.assets.erase hash }, .ok ())
  else (a, .error .NotFound)

/-- `Artist::update`: dispatch one tagged field mutation. -/
def update (H : List Nat → Nat) (cfg : Config) (a : Artist)
    (field : UpdatableData) : Artist × Except Err Unit :=
  match field with
  | .Alias x => (a.set_alias x, .ok ())
  | .Genres (.Add x) => a.add_checked_genres cfg x
  | .Genres (.Remove x) => a.remove_genre x
  | .Genres .Clear => ({ a with genres := [] }, .ok ())
  | .Description x => (a.set_description H x, .ok ())
  | .Assets (.Add x) => a.add_asset H cfg x
  | .Assets (.Remove x) => a.remove_asset H x
  | .Assets .Clear => ({ a with assets := [] }, .ok ())

/-- `Artist::is_verified`: the record is verified iff `verified_at` is set. -/
def is_verified (a : Artist) : Bool :=
  a.verified_at.isSome

end Artist

/-! ### Storage maps and pallet state -/

/-- Lookup in an association-list storage map. -/
def mapLookup {K V : Type} [DecidableEq K] : List (K × V) → K → Option V
  | [], _ => none
  | (k, v) :: rest, k0 => if k = k0 then some v else mapLookup rest k0

/-- `contains_key` of a storage map. -/
def mapContains {K V : Type} [DecidableEq K] (m : List (K × V)) (k : K) :
    Bool :=
  (mapLookup m k).isSome

/-- Remove a key from a storage map. -/
def mapRemove {K V : Type} [DecidableEq K] (m : List (K × V)) (k : K) :
    List (K × V) :=
  m.filter (fun p => p.1 ≠ k)

/-- Insert (overwrite) a key in a storage map. -/
def mapInsert {K V : Type} [DecidableEq K] (m : List (K × V)) (k : K)
    (v : V) : List (K × V) :=
  (k, v) :: mapRemove m k

/-- The pallet's observable state: the two indices (`ArtistOf`,
`ArtistNameOf`), the currency ledger (free and reserved balances), and the
current block number read from `frame_system`. -/
structure PalletState where
  artistOf : List (Nat × Artist)
  artistNameOf : List (List Nat × Artist)
  free : List (Nat × Nat)
  reserved : List (Nat × Nat)
  blockNumber : Nat
  deriving DecidableEq, Repr

namespace Pallet

/-- Free balance of an account (0 when absent). -/
def freeOf (st : PalletState) (who : Nat) : Nat :=
  (mapLookup st.free who).getD 0

/-- Reserved balance of an account (0 when absent). -/
def reservedOf (st : PalletState) (who : Nat) : Nat :=
  (mapLookup st.reserved who).getD 0

/-- `Currency::reserve` effect: move `amt` from free to reserved
(the caller has already checked `amt ≤ free`). -/
def reserveFunds (st : PalletState) (who : Nat) (amt : Nat) : PalletState :=
  { st with
    free := mapInsert st.free who (freeOf st who - amt)
    reserved := mapInsert st.reserved who (reservedOf st who + amt) }

/-- `Currency::unreserve` effect: move back at most the reserved amount. -/
def unreserveFunds (st : PalletState) (who : Nat) (amt : Nat) :
    PalletState :=
  let actual := min amt (reservedOf st who)
  { st with
    free := mapInsert st.free who (freeOf st who + actual)
    reserved := mapInsert st.reserved who (reservedOf st who - actual) }

/-- The accumulator loop of `checked_hash_assets`: hash each raw asset,
fail with `NotUniqueAsset` on a fingerprint already produced by this batch. -/
def hashAssetsAux (H : List Nat → Nat) (hashed : List Nat) :
    List (List Nat) → Except Err (List Nat)
  | [] => .ok hashed
  | a :: rest =>
    let hash := H a
    if hashed.contains hash then .error .NotUniqueAsset
    else hashAssetsAux H (hashed ++ [hash]) rest

/-- `Pallet::checked_hash_assets`. -/
def checked_hash_assets (H : List Nat → Nat) (raw_assets : List (List Nat)) :
    Except Err (List Nat) :=
  hashAssetsAux H [] raw_assets

/-- The `register` extrinsic. Guard order follows the source: owner index,
name index, deposit reservation, asset hashing, construction, checked
genres, insertion. An error rolls the whole transaction back. -/
def register (cfg : Config) (H : List Nat → Nat) (st : PalletState)
    (origin : Nat) (main_name : List Nat) (alias_ : Option (List Nat))
    (genres : List Nat) (description : Option (List Nat))
    (assets : List (List Nat)) : Except Err PalletState :=
  if mapContains st.artistOf origin then .error .AlreadyRegistered
  else if mapContains st.artistNameOf main_name then .error .NameUnavailable
  else if freeOf st origin < cfg.baseDeposit then .error .InsufficientBalance
  else
    let st1 := reserveFunds st origin cfg.baseDeposit
    match checked_hash_assets H assets with
    | .error e => .error e
    | .ok hashed =>
      let new_artist := Artist.new origin st.blockNumber main_name alias_
        (description.map H) hashed []
      match new_artist.set_checked_genres genres with
      | (_, .error e) => .error e
      | (a1, .ok _) =>
        .ok { st1 with artistOf := mapInsert st1.artistOf origin a1 }

/-- `Pallet::can_unregister`: registered, not verified, and the unregister
period fully elapsed (strict `<` comparison rejects, so equality passes). -/
def can_unregister (cfg : Config) (st : PalletState) (who : Nat) :
    Except Err Unit :=
  match mapLookup st.artistOf who with
  | none => .error .NotRegistered
  | some data =>
    if data.is_verified then .error .IsVerified
    else if st.blockNumber - data.registered_at < cfg.unregisterPeriod then
      .error .PeriodNotPassed
    else .ok ()

/-- The `unregister` extrinsic: guard, release the deposit, remove the
record from the owner index. -/
def unregister (cfg : Config) (st : PalletState) (origin : Nat) :
    Except Err PalletState :=
  match can_unregister cfg st origin with
  | .error e => .error e
  | .ok _ =>
    let st1 := unreserveFunds st origin cfg.baseDeposit
    .ok { st1 with artistOf := mapRemove st1.artistOf origin }

/-- The `update` extrinsic: `try_mutate` over the caller's record — the
mutated record is written back only when `Artist::update` returns `Ok`. -/
def update (cfg : Config) (H : List Nat → Nat) (st : PalletState)
    (origin : Nat) (data : UpdatableData) : Except Err PalletState :=
  match mapLookup st.artistOf origin with
  | none => .error .NotRegistered
  | some artist =>
    match artist.update H cfg data with
    | (_, .error e) => .error e
    | (a1, .ok _) =>
      .ok { st with artistOf := mapInsert st.artistOf origin a1 }

end Pallet

/-- A concrete stand-in for the external hasher, used by witnesses and
counterexamples (any function works for them; this one is injective on the
short byte lists they use). -/
def demoHash (l : List Nat) : Nat :=
  l.foldl (fun acc b => acc * 1000 + b + 1) 7

/-- Concrete configuration used by witnesses and counterexamples, matching
the scenario of the spec: `BaseDeposit=5, UnregisterPeriod=10, MaxGenres=5,
MaxAssets=32`. -/
def demoCfg : Config :=
  { baseDeposit := 5, unregisterPeriod := 10, maxNameLen := 64,
    maxGenres := 5, maxAssets := 32 }

/-- A genesis-like state with two funded accounts. -/
def stStart : PalletState :=
  { artistOf := [], artistNameOf := [], free := [(1, 100), (2, 100)],
    reserved := [], blockNumber := 0 }

/-- Run a continuation on the state of a successful call. -/
def afterOk {α : Type} (r : Except Err PalletState)
    (k : PalletState → Option α) : Option α :=
  match r with
  | .ok st => k st
  | .error _ => none

/-! ### Storage-map lemmas -/

theorem mapLookup_mapInsert_self {K V : Type} [DecidableEq K]
    (m : List (K × V)) (k : K) (v : V) :
    mapLookup (mapInsert m k v) k = some v := by
  simp [mapInsert, mapLookup]

theorem mapLookup_mapRemove_self {K V : Type} [DecidableEq K]
    (m : List (K × V)) (k : K) :
    mapLookup (mapRemove m k) k = none := by
  induction m with
  | nil => rfl
  | cons p rest ih =>
    by_cases hk : p.1 = k
    · simpa [mapRemove, hk] using ih
    · obtain ⟨k', v'⟩ := p
      simp only at hk
      simpa [mapRemove, mapLookup, hk] using ih

/-! ### C3: update atomicity on failure -/

/-- C3. Update atomicity on failure: whenever `Artist::update` returns an
error, the record it leaves behind (the `&mut self` after the call, which
is also what `try_mutate` would have written had the call succeeded) is
exactly the record it started from — no partial field mutation is
observable. At the pallet level `try_mutate` additionally discards the
working copy on error, so the stored record is unchanged as well. -/
theorem update_error_leaves_record (H : List Nat → Nat) (cfg : Config)
    (a : Artist) (field : UpdatableData) (e : Err)
    (h : (Artist.update H cfg a field).2 = .error e) :
    (Artist.update H cfg a field).1 = a := by
  cases field with
  | Alias x => simp [Artist.update] at h
  | Genres v =>
    cases v with
    | Add x =>
      by_cases hlen : a.genres.length < cfg.maxGenres
      · by_cases hdup : Artist.hasDupAux [] (a.genres ++ [x]) = true
        · simp [Artist.update, Artist.add_checked_genres,
            Artist.set_checked_genres, hlen, hdup]
        · simp [Artist.update, Artist.add_checked_genres,
            Artist.set_checked_genres, hlen, hdup] at h
      · simp [Artist.update, Artist.add_checked_genres, hlen]
    | Remove x =>
      by_cases hmem : x ∈ a.genres
      · simp [Artist.update, Artist.remove_genre, hmem] at h
      · simp [Artist.update, Artist.remove_genre, hmem]
    | Clear => simp [Artist.update] at h
  | Description x => simp [Artist.update] at h
  | Assets v =>
    cases v with
    | Add x =>
      by_cases hlen : a.assets.length < cfg.maxAssets
      · simp [Artist.update, Artist.add_asset, hlen] at h
      · simp [Artist.update, Artist.add_asset, hlen]
    | Remove x =>
      by_cases hmem : H x ∈ a.assets
      · simp [Artist.update, Artist.remove_asset, hmem] at h
      · simp [Artist.update, Artist.remove_asset, hmem]
    | Clear => simp [Artist.update] at h

/-- Witness for C3: removing an absent genre fails, and the record is
untouched. -/
theorem update_error_leaves_record_witness :
    (Artist.update demoHash demoCfg (Artist.new 1 0 [10] none none [] [])
      (.Genres (.Remove 3))).1 = Artist.new 1 0 [10] none none [] [] :=
  update_error_leaves_record demoHash demoCfg _ _ .NotFound rfl

/-! ### C9: main_name / owner / registered_at are frame conditions of update -/

/-- C9. `main_name` immutability: no update variant — succeeding or
failing — changes `main_name`, `owner` or `registered_at` of the record. -/
theorem update_preserves_identity (H : List Nat → Nat) (cfg : Config)
    (a : Artist) (field : UpdatableData) :
    (Artist.update H cfg a field).1.main_name = a.main_name ∧
    (Artist.update H cfg a field).1.owner = a.owner ∧
    (Artist.update H cfg a field).1.registered_at = a.registered_at := by
  cases field with
  | Alias x => simp [Artist.update, Artist.set_alias]
  | Genres v =>
    cases v with
    | Add x =>
      simp only [Artist.update, Artist.add_checked_genres,
        Artist.set_checked_genres]
      split
      · split <;> simp
      · simp
    | Remove x =>
      simp only [Artist.update, Artist.remove_genre]
      split <;> simp
    | Clear => simp [Artist.update]
  | Description x =>
    cases x <;> simp [Artist.update, Artist.set_description]
  | Assets v =>
    cases v with
    | Add x =>
      simp only [Artist.update, Artist.add_asset]
      split <;> simp
    | Remove x =>
      simp only [Artist.update, Artist.remove_asset]
      split <;> simp
    | Clear => simp [Artist.update]

/-! ### C6: verification lock -/

/-- C6. Verification lock: if the caller's stored record has `verified_at`
set, `unregister` fails with `IsVerified`, whatever the current block
number (the verification guard is checked before the cooldown guard). -/
theorem unregister_verified_fails (cfg : Config) (st : PalletState)
    (o : Nat) (a : Artist) (t : Nat)
    (ha : mapLookup st.artistOf o = some a)
    (hv : a.verified_at = some t) :
    Pallet.unregister cfg st o = .error .IsVerified := by
  simp [Pallet.unregister, Pallet.can_unregister, ha, Artist.is_verified, hv]

/-- A verified artist record used by witnesses. -/
def verifiedArtist : Artist :=
  { Artist.new 1 0 [10] none none [] [] with verified_at := some 2 }

/-- A state holding the verified artist, long after the cooldown. -/
def stVerified : PalletState :=
  { artistOf := [(1, verifiedArtist)], artistNameOf := [],
    free := [(1, 95)], reserved := [(1, 5)], blockNumber := 1000 }

/-- Witness for C6: a verified record cannot be unregistered even long
after the cooldown has elapsed. -/
theorem unregister_verified_fails_witness :
    Pallet.unregister demoCfg stVerified 1 = .error .IsVerified :=
  unregister_verified_fails demoCfg stVerified 1 verifiedArtist 2 rfl rfl

/-! ### C4: cooldown boundary is inclusive -/

/-- C4. Cooldown boundary: for an unverified registered owner with
`UnregisterPeriod = P > 0`, `unregister` fails with `PeriodNotPassed` when
exactly `P−1` blocks have elapsed since registration, and succeeds when
exactly `P` blocks have elapsed — removing the record and releasing the
reserved deposit back to the free balance (the guard is
`now − registered_at < P`, so equality passes). -/
theorem unregister_cooldown_boundary (cfg : Config) (st : PalletState)
    (o : Nat) (a : Artist)
    (ha : mapLookup st.artistOf o = some a)
    (hv : a.verified_at = none)
    (hP : 0 < cfg.unregisterPeriod) :
    (st.blockNumber = a.registered_at + (cfg.unregisterPeriod - 1) →
      Pallet.unregister cfg st o = .error .PeriodNotPassed) ∧
    (st.blockNumber = a.registered_at + cfg.unregisterPeriod →
      ((Pallet.unregister cfg st o).toOption.map fun st1 =>
          (mapLookup st1.artistOf o, Pallet.freeOf st1 o,
            Pallet.reservedOf st1 o))
        = some (none,
            Pallet.freeOf st o + min cfg.baseDeposit (Pallet.reservedOf st o),
            Pallet.reservedOf st o - min cfg.baseDeposit (Pallet.reservedOf st o))) := by
  constructor
  · intro hbn
    have hlt : st.blockNumber - a.registered_at < cfg.unregisterPeriod := by
      rw [hbn, Nat.add_sub_cancel_left]
      exact Nat.sub_lt hP Nat.one_pos
    simp [Pallet.unregister, Pallet.can_unregister, ha, Artist.is_verified,
      hv, hlt]
  · intro hbn
    have hge : ¬ st.blockNumber - a.registered_at < cfg.unregisterPeriod := by
      rw [hbn, Nat.add_sub_cancel_left]
      exact Nat.lt_irrefl _
    simp only [Pallet.unregister, Pallet.can_unregister, ha,
      Artist.is_verified, hv, Option.isSome_none, Bool.false_eq_true,
      if_false, hge, if_true, Except.toOption, Option.map_some]
    refine congrArg some ?_
    refine Prod.ext ?_ (Prod.ext ?_ ?_)
    · exact mapLookup_mapRemove_self _ _
    · simp [Pallet.freeOf, Pallet.unreserveFunds, mapLookup_mapInsert_self]
    · simp [Pallet.reservedOf, Pallet.unreserveFunds, mapLookup_mapInsert_self]

/-- The registered, unverified artist used by cooldown witnesses. -/
def coolArtist : Artist := Artist.new 1 0 [10] none none [] []

/-- The cooldown state at elapsed time `P − 1 = 9`. -/
def stCool9 : PalletState :=
  { artistOf := [(1, coolArtist)], artistNameOf := [],
    free := [(1, 95)], reserved := [(1, 5)], blockNumber := 9 }

/-- The cooldown state at elapsed time `P = 10`. -/
def stCool10 : PalletState :=
  { artistOf := [(1, coolArtist)], artistNameOf := [],
    free := [(1, 95)], reserved := [(1, 5)], blockNumber := 10 }

/-- Witness for C4: with `P = 10`, `unregister` fails at elapsed time 9 and
succeeds at elapsed time 10, restoring the free balance to 100. -/
theorem unregister_cooldown_boundary_witness :
    Pallet.unregister demoCfg stCool9 1 = .error .PeriodNotPassed ∧
    ((Pallet.unregister demoCfg stCool10 1).toOption.map fun st1 =>
        (mapLookup st1.artistOf 1, Pallet.freeOf st1 1,
          Pallet.reservedOf st1 1))
      = some (none,
          Pallet.freeOf stCool10 1 + min demoCfg.baseDeposit (Pallet.reservedOf stCool10 1),
          Pallet.reservedOf stCool10 1 - min demoCfg.baseDeposit (Pallet.reservedOf stCool10 1)) :=
  ⟨(unregister_cooldown_boundary demoCfg stCool9 1 coolArtist rfl rfl
      (by decide)).1 rfl,
   (unregister_cooldown_boundary demoCfg stCool10 1 coolArtist rfl rfl
      (by decide)).2 rfl⟩

/-! ### Helper lemmas on `checked_hash_assets` -/

/-- The hashing loop succeeds when every incoming fingerprint is fresh,
and then appends the fingerprints in order. -/
theorem hashAssetsAux_ok_of_nodup (H : List Nat → Nat) (raws : List (List Nat)) :
    ∀ hashed : List Nat, (∀ y ∈ raws.map H, y ∉ hashed) →
      (raws.map H).Nodup →
      Pallet.hashAssetsAux H hashed raws = .ok (hashed ++ raws.map H) := by
  induction raws with
  | nil => intro hashed _ _; simp [Pallet.hashAssetsAux]
  | cons a rest ih =>
    intro hashed hfresh hnd
    rw [List.map_cons] at hfresh hnd
    have hnotin : H a ∉ hashed := hfresh (H a) (List.mem_cons_self _ _)
    have hhead : H a ∉ rest.map H := (List.nodup_cons.mp hnd).1
    have hrest : (rest.map H).Nodup := (List.nodup_cons.mp hnd).2
    have hfresh1 : ∀ y ∈ rest.map H, y ∉ hashed ++ [H a] := by
      intro y hy
      simp only [List.mem_append, List.mem_singleton]
      rintro (h1 | rfl)
      · exact hfresh y (List.mem_cons_of_mem _ hy) h1
      · exact hhead hy
    have hcb : hashed.contains (H a) = false := by simpa using hnotin
    have hrec := ih (hashed ++ [H a]) hfresh1 hrest
    simp only [Pallet.hashAssetsAux, hcb, Bool.false_eq_true, if_false]
    rw [hrec]
    simp

/-- Success inversion for the hashing loop: the output is the accumulator
followed by the fingerprints, all incoming fingerprints are fresh, and the
incoming fingerprints are pairwise distinct. -/
theorem hashAssetsAux_ok_inv (H : List Nat → Nat) (raws : List (List Nat)) :
    ∀ hashed out : List Nat, Pallet.hashAssetsAux H hashed raws = .ok out →
      out = hashed ++ raws.map H ∧ (∀ y ∈ raws.map H, y ∉ hashed) ∧
        (raws.map H).Nodup := by
  induction raws with
  | nil =>
    intro hashed out h
    simp only [Pallet.hashAssetsAux] at h
    cases h
    simp
  | cons a rest ih =>
    intro hashed out h
    simp only [Pallet.hashAssetsAux] at h
    by_cases hc : H a ∈ hashed
    · have hcb : hashed.contains (H a) = true := by simpa using hc
      simp only [hcb, if_true] at h
      exact absurd h (by simp)
    · have hcb : hashed.contains (H a) = false := by simpa using hc
      simp only [hcb, Bool.false_eq_true, if_false] at h
      obtain ⟨hout, hfresh, hnd⟩ := ih (hashed ++ [H a]) out h
      refine ⟨by simpa using hout, ?_, ?_⟩
      · intro y hy
        rw [List.map_cons, List.mem_cons] at hy
        rcases hy with rfl | hy
        · exact hc
        · intro hin
          exact hfresh y hy (by simp [hin])
      · rw [List.map_cons, List.nodup_cons]
        refine ⟨fun hmem => ?_, hnd⟩
        exact hfresh (H a) hmem (by simp)

/-- The hashing loop only ever fails with `NotUniqueAsset`. -/
theorem hashAssetsAux_error_eq (H : List Nat → Nat) (raws : List (List Nat)) :
    ∀ hashed : List Nat, ∀ e : Err,
      Pallet.hashAssetsAux H hashed raws = .error e → e = .NotUniqueAsset := by
  induction raws with
  | nil => intro hashed e h; simp [Pallet.hashAssetsAux] at h
  | cons a rest ih =>
    intro hashed e h
    simp only [Pallet.hashAssetsAux] at h
    by_cases hc : H a ∈ hashed
    · have hcb : hashed.contains (H a) = true := by simpa using hc
      simp only [hcb, if_true] at h
      cases h
      rfl
    · have hcb : hashed.contains (H a) = false := by simpa using hc
      simp only [hcb, Bool.false_eq_true, if_false] at h
      exact ih (hashed ++ [H a]) e h

/-- A batch with a repeated fingerprint is rejected with `NotUniqueAsset`. -/
theorem checked_hash_assets_error_of_dup (H : List Nat → Nat)
    (raws : List (List Nat)) (hdup : ¬ (raws.map H).Nodup) :
    Pallet.checked_hash_assets H raws = .error .NotUniqueAsset := by
  rcases hres : Pallet.checked_hash_assets H raws with e | out
  · rw [hashAssetsAux_error_eq H raws [] e hres]
  · exact absurd (hashAssetsAux_ok_inv H raws [] out hres).2.2 hdup

/-! ### Inversion of a successful `register` -/

/-- What a successful `register` did: the guards were all passed, the
asset batch hashed cleanly, the genre list had no duplicate, the name
index was not touched, and the stored record is the freshly constructed
one (fields exactly as `Artist::new` plus the checked genres). -/
theorem register_ok_spec (cfg : Config) (H : List Nat → Nat)
    (st : PalletState) (o : Nat) (n : List Nat) (al : Option (List Nat))
    (gs : List Nat) (d : Option (List Nat)) (as : List (List Nat))
    (st1 : PalletState)
    (h : Pallet.register cfg H st o n al gs d as = .ok st1) :
    Artist.hasDupAux [] gs = false ∧
    Pallet.checked_hash_assets H as = .ok (as.map H) ∧
    st1.artistNameOf = st.artistNameOf ∧
    mapLookup st1.artistOf o =
      some { owner := o, registered_at := st.blockNumber,
             verified_at := none, main_name := n, alias_ := al,
             genres := gs, description := d.map H, assets := as.map H,
             contracts := [] } := by
  simp only [Pallet.register] at h
  split at h
  · exact absurd h (by simp)
  split at h
  · exact absurd h (by simp)
  split at h
  · exact absurd h (by simp)
  split at h
  · exact absurd h (by simp)
  next hashed hch =>
    have hmap := (hashAssetsAux_ok_inv H as [] hashed hch).1
    simp only [List.nil_append] at hmap
    subst hmap
    simp only [Artist.set_checked_genres, Artist.new] at h
    by_cases hdup : Artist.hasDupAux [] gs = true
    · simp [hdup] at h
    · have hdf : Artist.hasDupAux [] gs = false := by
        simpa using hdup
      simp only [hdf, Bool.false_eq_true, if_false] at h
      cases h
      refine ⟨hdf, hch, rfl, ?_⟩
      simp [mapLookup_mapInsert_self]

/-! ### C7: registration duplicate-asset rejection -/

/-- C7. For a caller passing the identity and balance guards: a raw-asset
batch in which two entries hash to the same fingerprint makes the whole
`register` call fail with `NotUniqueAsset` (no record inserted — the
transaction produces no state); a batch whose fingerprints are pairwise
distinct passes the duplicate check, and any successful `register` stores
exactly one fingerprint per entry, in order. -/
theorem register_asset_dup_check (cfg : Config) (H : List Nat → Nat)
    (st : PalletState) (o : Nat) (n : List Nat) (al : Option (List Nat))
    (gs : List Nat) (d : Option (List Nat)) (as : List (List Nat))
    (h1 : mapContains st.artistOf o = false)
    (h2 : mapContains st.artistNameOf n = false)
    (h3 : ¬ Pallet.freeOf st o < cfg.baseDeposit) :
    (¬ (as.map H).Nodup →
      Pallet.register cfg H st o n al gs d as = .error .NotUniqueAsset) ∧
    ((as.map H).Nodup →
      Pallet.checked_hash_assets H as = .ok (as.map H)) ∧
    (∀ st1, Pallet.register cfg H st o n al gs d as = .ok st1 →
      (mapLookup st1.artistOf o).map Artist.assets = some (as.map H)) := by
  refine ⟨?_, ?_, ?_⟩
  · intro hdup
    have hch := checked_hash_assets_error_of_dup H as hdup
    simp [Pallet.register, h1, h2, h3, hch]
  · intro hnd
    exact hashAssetsAux_ok_of_nodup H as [] (by simp) hnd
  · intro st1 hreg
    rw [(register_ok_spec cfg H st o n al gs d as st1 hreg).2.2.2]
    rfl

/-- Witness for C7: with the demo hasher, the batch `[[7],[7]]` (two equal
byte strings, hence equal fingerprints) aborts `register` with
`NotUniqueAsset`, while `[[1],[2]]` hashes cleanly to its two distinct
fingerprints. -/
theorem register_asset_dup_check_witness :
    Pallet.register demoCfg demoHash stStart 1 [10] none [] none
      [[7], [7]] = .error .NotUniqueAsset ∧
    Pallet.checked_hash_assets demoHash [[1], [2]]
      = .ok ([[1], [2]].map demoHash) := by
  constructor
  · exact (register_asset_dup_check demoCfg demoHash stStart 1 [10] none []
      none [[7], [7]] rfl rfl (by decide)).1 (by decide)
  · exact (register_asset_dup_check demoCfg demoHash stStart 1 [10] none []
      none [[1], [2]] rfl rfl (by decide)).2.1 (by decide)

/-! ### C8: asset add/remove round-trip -/

/-- C8. Round-trip: if `update(Assets Add(x))` succeeds on a record and is
immediately followed by `update(Assets Remove(x))`, the remove succeeds
and the resulting assets collection has exactly the members of the
original assets collection (set equality; in fact the result is a
permutation of the original, as the remove deletes the first copy of the
just-pushed fingerprint). -/
theorem assets_add_remove_roundtrip (H : List Nat → Nat) (cfg : Config)
    (a a1 : Artist) (x : List Nat)
    (h : Artist.update H cfg a (.Assets (.Add x)) = (a1, .ok ())) :
    (Artist.update H cfg a1 (.Assets (.Remove x))).2 = .ok () ∧
    ∀ y, y ∈ (Artist.update H cfg a1 (.Assets (.Remove x))).1.assets ↔
      y ∈ a.assets := by
  simp only [Artist.update, Artist.add_asset] at h
  by_cases hlen : a.assets.length < cfg.maxAssets
  · rw [if_pos hlen] at h
    injection h with h1 h2
    subst h1
    have hcb : (a.assets ++ [H x]).contains (H x) = true := by simp
    have hperm : List.Perm ((a.assets ++ [H x]).erase (H x)) a.assets := by
      by_cases hx : H x ∈ a.assets
      · rw [List.erase_append_left _ hx]
        exact ((List.perm_cons_erase hx).trans
          (List.perm_append_singleton _ _).symm).symm
      · rw [List.erase_append_right _ hx]
        simp
    constructor
    · simp [Artist.update, Artist.remove_asset, hcb]
    · intro y
      simp only [Artist.update, Artist.remove_asset, hcb, if_true]
      exact hperm.mem_iff
  · rw [if_neg hlen] at h
    exact absurd (congrArg Prod.snd h) (by simp)

/-- Witness for C8: adding the asset `[7]` to a record that already holds
its fingerprint and removing it again succeeds and leaves the same set of
fingerprints. -/
theorem assets_add_remove_roundtrip_witness :
    (Artist.update demoHash demoCfg
      ((Artist.update demoHash demoCfg
        { Artist.new 1 0 [10] none none [] [] with assets := [7008, 33] }
        (.Assets (.Add [7]))).1) (.Assets (.Remove [7]))).2 = .ok () ∧
    ∀ y, y ∈ (Artist.update demoHash demoCfg
      ((Artist.update demoHash demoCfg
        { Artist.new 1 0 [10] none none [] [] with assets := [7008, 33] }
        (.Assets (.Add [7]))).1) (.Assets (.Remove [7]))).1.assets ↔
      y ∈ ({ Artist.new 1 0 [10] none none [] [] with
        assets := [7008, 33] } : Artist).assets :=
  assets_add_remove_roundtrip demoHash demoCfg _ _ [7] rfl

/-! ### Applying sequences of updates to a record -/

/-- The stored record after one `update` extrinsic by the owner of `a`:
`try_mutate` keeps the working copy only on success. -/
def applyUpdate (H : List Nat → Nat) (cfg : Config) (a : Artist)
    (u : UpdatableData) : Artist :=
  match Artist.update H cfg a u with
  | (a1, .ok _) => a1
  | (_, .error _) => a

/-- The stored record after a sequence of `update` extrinsics. -/
def applyUpdates (H : List Nat → Nat) (cfg : Config) (a : Artist)
    (us : List UpdatableData) : Artist :=
  us.foldl (applyUpdate H cfg) a

/-- The seen-set scan reports `false` exactly on lists that are duplicate
free and disjoint from the seen-set. -/
theorem hasDupAux_false_iff (l : List Nat) :
    ∀ seen : List Nat, Artist.hasDupAux seen l = false ↔
      l.Nodup ∧ ∀ g ∈ l, g ∉ seen := by
  induction l with
  | nil => intro seen; simp [Artist.hasDupAux]
  | cons g rest ih =>
    intro seen
    by_cases hg : g ∈ seen
    · have hcb : seen.contains g = true := by simpa using hg
      simp only [Artist.hasDupAux, hcb, if_true]
      constructor
      · intro h; exact absurd h (by simp)
      · rintro ⟨-, hdisj⟩
        exact absurd hg (hdisj g (List.mem_cons_self _ _))
    · have hcb : seen.contains g = false := by simpa using hg
      simp only [Artist.hasDupAux, hcb, Bool.false_eq_true, if_false]
      rw [ih (g :: seen)]
      constructor
      · rintro ⟨hnd, hdisj⟩
        refine ⟨List.nodup_cons.mpr ⟨?_, hnd⟩, ?_⟩
        · intro hmem
          exact absurd (List.mem_cons_self g seen)
            (hdisj g hmem)
        · intro y hy
          rcases List.mem_cons.mp hy with rfl | hy'
          · exact hg
          · intro hsy
            exact hdisj y hy' (List.mem_cons_of_mem _ hsy)
      · rintro ⟨hnd, hdisj⟩
        obtain ⟨hhead, htail⟩ := List.nodup_cons.mp hnd
        refine ⟨htail, ?_⟩
        intro y hy
        intro hmem
        rcases List.mem_cons.mp hmem with rfl | hsy
        · exact hhead hy
        · exact hdisj y (List.mem_cons_of_mem _ hy) hsy

/-- One update extrinsic preserves the genre set invariant: no duplicate
tags and at most `MaxGenres` entries. -/
theorem genres_inv_applyUpdate (H : List Nat → Nat) (cfg : Config)
    (a : Artist) (u : UpdatableData)
    (hnd : a.genres.Nodup) (hlen : a.genres.length ≤ cfg.maxGenres) :
    (applyUpdate H cfg a u).genres.Nodup ∧
    (applyUpdate H cfg a u).genres.length ≤ cfg.maxGenres := by
  cases u with
  | Alias x => exact ⟨hnd, hlen⟩
  | Genres v =>
    cases v with
    | Add x =>
      by_cases hl : a.genres.length < cfg.maxGenres
      · by_cases hdup : Artist.hasDupAux [] (a.genres ++ [x]) = true
        · simp only [applyUpdate, Artist.update, Artist.add_checked_genres,
            Artist.set_checked_genres, hl, if_true, hdup]
          exact ⟨hnd, hlen⟩
        · have hdf : Artist.hasDupAux [] (a.genres ++ [x]) = false := by
            simpa using hdup
          simp only [applyUpdate, Artist.update, Artist.add_checked_genres,
            Artist.set_checked_genres, hl, if_true, hdf,
            Bool.false_eq_true, if_false]
          refine ⟨((hasDupAux_false_iff _ []).mp hdf).1, ?_⟩
          simpa using hl
      · simp only [applyUpdate, Artist.update, Artist.add_checked_genres,
          hl, if_false]
        exact ⟨hnd, hlen⟩
    | Remove x =>
      by_cases hx : x ∈ a.genres
      · have hcb : a.genres.contains x = true := by simpa using hx
        simp only [applyUpdate, Artist.update, Artist.remove_genre, hcb,
          if_true]
        exact ⟨hnd.erase x,
          le_trans (List.erase_sublist x a.genres).length_le hlen⟩
      · have hcb : a.genres.contains x = false := by simpa using hx
        simp only [applyUpdate, Artist.update, Artist.remove_genre, hcb,
          Bool.false_eq_true, if_false]
        exact ⟨hnd, hlen⟩
    | Clear =>
      simp only [applyUpdate, Artist.update]
      exact ⟨List.nodup_nil, by simp⟩
  | Description x =>
    cases x <;> exact ⟨hnd, hlen⟩
  | Assets v =>
    cases v with
    | Add x =>
      by_cases hl : a.assets.length < cfg.maxAssets
      · simp only [applyUpdate, Artist.update, Artist.add_asset, hl, if_true]
        exact ⟨hnd, hlen⟩
      · simp only [applyUpdate, Artist.update, Artist.add_asset, hl, if_false]
        exact ⟨hnd, hlen⟩
    | Remove x =>
      by_cases hx : H x ∈ a.assets
      · have hcb : a.assets.contains (H x) = true := by simpa using hx
        simp only [applyUpdate, Artist.update, Artist.remove_asset, hcb,
          if_true]
        exact ⟨hnd, hlen⟩
      · have hcb : a.assets.contains (H x) = false := by simpa using hx
        simp only [applyUpdate, Artist.update, Artist.remove_asset, hcb,
          Bool.false_eq_true, if_false]
        exact ⟨hnd, hlen⟩
    | Clear =>
      simp only [applyUpdate, Artist.update]
      exact ⟨hnd, hlen⟩

/-- The genre set invariant is preserved by any sequence of updates. -/
theorem genres_inv_applyUpdates (H : List Nat → Nat) (cfg : Config)
    (us : List UpdatableData) :
    ∀ a : Artist, a.genres.Nodup → a.genres.length ≤ cfg.maxGenres →
      (applyUpdates H cfg a us).genres.Nodup ∧
      (applyUpdates H cfg a us).genres.length ≤ cfg.maxGenres := by
  induction us with
  | nil => intro a hnd hlen; exact ⟨hnd, hlen⟩
  | cons u rest ih =>
    intro a hnd hlen
    obtain ⟨hnd1, hlen1⟩ := genres_inv_applyUpdate H cfg a u hnd hlen
    exact ih (applyUpdate H cfg a u) hnd1 hlen1

/-! ### C5: genre set invariant -/

/-- C5. Genre set invariant: a record created by a successful `register`
(whose genre argument respects the `BoundedVec` bound), and then subjected
to any sequence of update extrinsics — in particular any sequence of
Genres Add / Remove / Clear — never holds more than `MaxGenres` genre tags
and never holds the same tag twice. -/
theorem genres_invariant (cfg : Config) (H : List Nat → Nat)
    (st : PalletState) (o : Nat) (n : List Nat) (al : Option (List Nat))
    (gs : List Nat) (d : Option (List Nat)) (as : List (List Nat))
    (st1 : PalletState) (a0 : Artist)
    (hreg : Pallet.register cfg H st o n al gs d as = .ok st1)
    (hgs : gs.length ≤ cfg.maxGenres)
    (ha : mapLookup st1.artistOf o = some a0) :
    ∀ us : List UpdatableData,
      (applyUpdates H cfg a0 us).genres.Nodup ∧
      (applyUpdates H cfg a0 us).genres.length ≤ cfg.maxGenres := by
  intro us
  obtain ⟨hdf, -, -, hlook⟩ :=
    register_ok_spec cfg H st o n al gs d as st1 hreg
  rw [ha] at hlook
  have ha0 : a0.genres = gs := by
    cases hlook
    rfl
  have hnd : a0.genres.Nodup := by
    rw [ha0]
    exact ((hasDupAux_false_iff gs []).mp hdf).1
  have hlen : a0.genres.length ≤ cfg.maxGenres := by
    rw [ha0]
    exact hgs
  exact genres_inv_applyUpdates H cfg us a0 hnd hlen

/-- Witness for C5: register with one genre, then add a second, remove the
first and add it back; the invariant conclusion is instantiated on that
concrete sequence. -/
theorem genres_invariant_witness :
    (applyUpdates demoHash demoCfg
      { owner := 1, registered_at := 0, verified_at := none,
        main_name := [10], alias_ := none, genres := [3],
        description := none, assets := [], contracts := [] }
      [.Genres (.Add 4), .Genres (.Remove 3), .Genres (.Add 3)]).genres.Nodup ∧
    (applyUpdates demoHash demoCfg
      { owner := 1, registered_at := 0, verified_at := none,
        main_name := [10], alias_ := none, genres := [3],
        description := none, assets := [], contracts := [] }
      [.Genres (.Add 4), .Genres (.Remove 3), .Genres (.Add 3)]).genres.length
      ≤ demoCfg.maxGenres :=
  genres_invariant demoCfg demoHash stStart 1 [10] none [3] none [] _ _
    rfl (by decide) rfl
    [.Genres (.Add 4), .Genres (.Remove 3), .Genres (.Add 3)]

/-! ### C2: asset no-duplicate invariant (refuted for Assets Add) -/

/-- Counterexample to C2 as stated: register owner 1 with the single raw
asset `[7]` (fingerprint 7008 under the demo hasher), then issue the
update `Assets Add([7])`. The update **succeeds**, and the stored record's
assets list is `[7008, 7008]` — a duplicate fingerprint — because
`add_asset` pushes without any duplicate check. -/
theorem assets_nodup_counterexample :
    (afterOk (Pallet.register demoCfg demoHash stStart 1 [10] none [] none
        [[7]]) fun st1 =>
      afterOk (Pallet.update demoCfg demoHash st1 1 (.Assets (.Add [7])))
        fun st2 =>
          (mapLookup st2.artistOf 1).map fun a =>
            (a.assets, decide a.assets.Nodup))
      = some ([7008, 7008], false) := by
  decide

/-- One non-`Assets Add` update extrinsic preserves the asset invariant:
no duplicate fingerprints and at most `MaxAssets` entries. -/
theorem assets_inv_applyUpdate (H : List Nat → Nat) (cfg : Config)
    (a : Artist) (u : UpdatableData) (hu : ∀ x, u ≠ .Assets (.Add x))
    (hnd : a.assets.Nodup) (hlen : a.assets.length ≤ cfg.maxAssets) :
    (applyUpdate H cfg a u).assets.Nodup ∧
    (applyUpdate H cfg a u).assets.length ≤ cfg.maxAssets := by
  cases u with
  | Alias x => exact ⟨hnd, hlen⟩
  | Genres v =>
    cases v with
    | Add x =>
      by_cases hl : a.genres.length < cfg.maxGenres
      · by_cases hdup : Artist.hasDupAux [] (a.genres ++ [x]) = true
        · simp only [applyUpdate, Artist.update, Artist.add_checked_genres,
            Artist.set_checked_genres, hl, if_true, hdup]
          exact ⟨hnd, hlen⟩
        · have hdf : Artist.hasDupAux [] (a.genres ++ [x]) = false := by
            simpa using hdup
          simp only [applyUpdate, Artist.update, Artist.add_checked_genres,
            Artist.set_checked_genres, hl, if_true, hdf,
            Bool.false_eq_true, if_false]
          exact ⟨hnd, hlen⟩
      · simp only [applyUpdate, Artist.update, Artist.add_checked_genres,
          hl, if_false]
        exact ⟨hnd, hlen⟩
    | Remove x =>
      by_cases hx : x ∈ a.genres
      · have hcb : a.genres.contains x = true := by simpa using hx
        simp only [applyUpdate, Artist.update, Artist.remove_genre, hcb,
          if_true]
        exact ⟨hnd, hlen⟩
      · have hcb : a.genres.contains x = false := by simpa using hx
        simp only [applyUpdate, Artist.update, Artist.remove_genre, hcb,
          Bool.false_eq_true, if_false]
        exact ⟨hnd, hlen⟩
    | Clear =>
      simp only [applyUpdate, Artist.update]
      exact ⟨hnd, hlen⟩
  | Description x =>
    cases x <;> exact ⟨hnd, hlen⟩
  | Assets v =>
    cases v with
    | Add x => exact absurd rfl (hu x)
    | Remove x =>
      by_cases hx : H x ∈ a.assets
      · have hcb : a.assets.contains (H x) = true := by simpa using hx
        simp only [applyUpdate, Artist.update, Artist.remove_asset, hcb,
          if_true]
        exact ⟨hnd.erase _,
          le_trans (List.erase_sublist (H x) a.assets).length_le hlen⟩
      · have hcb : a.assets.contains (H x) = false := by simpa using hx
        simp only [applyUpdate, Artist.update, Artist.remove_asset, hcb,
          Bool.false_eq_true, if_false]
        exact ⟨hnd, hlen⟩
    | Clear =>
      simp only [applyUpdate, Artist.update]
      exact ⟨List.nodup_nil, by simp⟩

/-- C2 amended. A successful `register` (with the asset batch inside its
`BoundedVec` bound) stores an assets list with no duplicate fingerprints
and at most `MaxAssets` entries; every update extrinsic other than
`Assets Add` preserves both halves of that invariant; `Assets Add`
preserves the `MaxAssets` length bound, but performs no duplicate check
and so can break the no-duplicates half (see the counterexample). -/
theorem assets_invariant_amended (cfg : Config) (H : List Nat → Nat)
    (st : PalletState) (o : Nat) (n : List Nat) (al : Option (List Nat))
    (gs : List Nat) (d : Option (List Nat)) (as : List (List Nat))
    (st1 : PalletState) (a0 : Artist)
    (hreg : Pallet.register cfg H st o n al gs d as = .ok st1)
    (has : as.length ≤ cfg.maxAssets)
    (ha : mapLookup st1.artistOf o = some a0) :
    (a0.assets.Nodup ∧ a0.assets.length ≤ cfg.maxAssets) ∧
    (∀ (a : Artist) (u : UpdatableData), (∀ x, u ≠ .Assets (.Add x)) →
      a.assets.Nodup → a.assets.length ≤ cfg.maxAssets →
      (applyUpdate H cfg a u).assets.Nodup ∧
      (applyUpdate H cfg a u).assets.length ≤ cfg.maxAssets) ∧
    (∀ (a : Artist) (x : List Nat), a.assets.length ≤ cfg.maxAssets →
      (applyUpdate H cfg a (.Assets (.Add x))).assets.length
        ≤ cfg.maxAssets) := by
  refine ⟨?_, fun a u hu => assets_inv_applyUpdate H cfg a u hu, ?_⟩
  · obtain ⟨-, hch, -, hlook⟩ :=
      register_ok_spec cfg H st o n al gs d as st1 hreg
    rw [ha] at hlook
    have ha0 : a0.assets = as.map H := by
      cases hlook
      rfl
    refine ⟨?_, ?_⟩
    · rw [ha0]
      exact (hashAssetsAux_ok_inv H as [] (as.map H) hch).2.2
    · rw [ha0, List.length_map]
      exact has
  · intro a x hlen
    by_cases hl : a.assets.length < cfg.maxAssets
    · simp only [applyUpdate, Artist.update, Artist.add_asset, hl, if_true]
      simpa using hl
    · simp only [applyUpdate, Artist.update, Artist.add_asset, hl, if_false]
      exact hlen

/-- Witness for C2 (amended): instantiated at the registration of owner 1
with the single raw asset `[7]`. -/
theorem assets_invariant_amended_witness :
    ({ owner := 1, registered_at := 0, verified_at := none,
       main_name := [10], alias_ := none, genres := [],
       description := none, assets := [7008], contracts := [] } :
         Artist).assets.Nodup ∧
    ({ owner := 1, registered_at := 0, verified_at := none,
       main_name := [10], alias_ := none, genres := [],
       description := none, assets := [7008], contracts := [] } :
         Artist).assets.length ≤ demoCfg.maxAssets :=
  (assets_invariant_amended demoCfg demoHash stStart 1 [10] none [] none
    [[7]] _ _ rfl (by decide) rfl).1

/-! ### The name index: helper lemmas -/

/-- `register` can fail with `NameUnavailable` only when the name index
already contains the requested `main_name`. -/
theorem register_error_ne_nameUnavailable (cfg : Config)
    (H : List Nat → Nat) (st : PalletState) (o : Nat) (n : List Nat)
    (al : Option (List Nat)) (gs : List Nat) (d : Option (List Nat))
    (as : List (List Nat)) (e : Err)
    (hn : mapContains st.artistNameOf n = false)
    (h : Pallet.register cfg H st o n al gs d as = .error e) :
    e ≠ .NameUnavailable := by
  simp only [Pallet.register, hn, Bool.false_eq_true, if_false] at h
  split at h
  · cases h
    decide
  split at h
  · cases h
    decide
  split at h
  · rename_i e0 hch
    have he : e0 = .NotUniqueAsset := hashAssetsAux_error_eq H as [] e0 hch
    subst he
    cases h
    decide
  · by_cases hdup : Artist.hasDupAux [] gs = true
    · simp only [Artist.set_checked_genres, hdup, if_true] at h
      cases h
      decide
    · have hdf : Artist.hasDupAux [] gs = false := by simpa using hdup
      simp only [Artist.set_checked_genres, hdf, Bool.false_eq_true,
        if_false] at h
      exact absurd h (by simp)

/-- A successful `update` leaves the name index untouched. -/
theorem update_ok_nameIndex (cfg : Config) (H : List Nat → Nat)
    (st : PalletState) (o : Nat) (data : UpdatableData) (st1 : PalletState)
    (h : Pallet.update cfg H st o data = .ok st1) :
    st1.artistNameOf = st.artistNameOf := by
  simp only [Pallet.update] at h
  split at h
  · exact absurd h (by simp)
  · split at h
    · exact absurd h (by simp)
    · cases h
      rfl

/-- A successful `unregister` leaves the name index untouched. -/
theorem unregister_ok_nameIndex (cfg : Config) (st : PalletState) (o : Nat)
    (st1 : PalletState) (h : Pallet.unregister cfg st o = .ok st1) :
    st1.artistNameOf = st.artistNameOf := by
  simp only [Pallet.unregister] at h
  split at h
  · exact absurd h (by simp)
  · cases h
    rfl

/-! ### C1: name uniqueness across registrations (refuted) -/

/-- Counterexample to C1 as stated: owner 1 registers `main_name = [10]`
successfully, then owner 2 registers the **same** name — and succeeds as
well (`afterOk` returns `some`), instead of failing with
`NameUnavailable`; afterwards two records with the same `main_name`
coexist. `register` checks the name index but never inserts into it. -/
theorem name_uniqueness_counterexample :
    (afterOk (Pallet.register demoCfg demoHash stStart 1 [10] none [] none
        []) fun st1 =>
      afterOk (Pallet.register demoCfg demoHash st1 2 [10] none [] none [])
        fun st2 =>
          some ((mapLookup st2.artistOf 1).map Artist.main_name,
                (mapLookup st2.artistOf 2).map Artist.main_name))
      = some (some [10], some [10]) := by
  decide

/-- C1 amended. After a successful `register` of `main_name` by the first
owner, a subsequent `register` of the same `main_name` by a second owner
fails with `NameUnavailable` only if the name index already contained that
name **before the first call**: the first call leaves the name index
unchanged (this core never inserts into it), so whenever the name was not
in the index, the second call cannot fail with `NameUnavailable` — name
uniqueness is not enforced between registrations by this core. -/
theorem register_same_name_not_unavailable (cfg : Config)
    (H : List Nat → Nat) (st : PalletState) (o1 o2 : Nat) (n : List Nat)
    (al1 : Option (List Nat)) (gs1 : List Nat) (d1 : Option (List Nat))
    (as1 : List (List Nat)) (al2 : Option (List Nat)) (gs2 : List Nat)
    (d2 : Option (List Nat)) (as2 : List (List Nat)) (st1 : PalletState)
    (h1 : Pallet.register cfg H st o1 n al1 gs1 d1 as1 = .ok st1)
    (hn : mapContains st.artistNameOf n = false) :
    st1.artistNameOf = st.artistNameOf ∧
    ∀ e : Err, Pallet.register cfg H st1 o2 n al2 gs2 d2 as2 = .error e →
      e ≠ .NameUnavailable := by
  have hne : st1.artistNameOf = st.artistNameOf :=
    (register_ok_spec cfg H st o1 n al1 gs1 d1 as1 st1 h1).2.2.1
  refine ⟨hne, ?_⟩
  intro e h2
  exact register_error_ne_nameUnavailable cfg H st1 o2 n al2 gs2 d2 as2 e
    (by rw [hne]; exact hn) h2

/-- The state after owner 1's registration in `stStart`. -/
def stReg1 : PalletState :=
  { artistOf := [(1,
      { owner := 1, registered_at := 0, verified_at := none,
        main_name := [10], alias_ := none, genres := [],
        description := none, assets := [], contracts := [] })],
    artistNameOf := [], free := [(1, 95), (2, 100)],
    reserved := [(1, 5)], blockNumber := 0 }

/-- Witness for C1 (amended): after owner 1 registers `[10]` in the demo
state, the name index is unchanged and no error of a second registration
of `[10]` by owner 2 can be `NameUnavailable`. -/
theorem register_same_name_not_unavailable_witness :
    stReg1.artistNameOf = stStart.artistNameOf ∧
    ∀ e : Err, Pallet.register demoCfg demoHash stReg1 2 [10] none [] none
      [] = .error e → e ≠ .NameUnavailable :=
  register_same_name_not_unavailable demoCfg demoHash stStart 1 2 [10]
    none [] none [] none [] none [] stReg1 rfl rfl

/-! ### C10: the name index is never written -/

/-- The states reachable from an empty registry by the pallet's own
operations: successful `register`, `update` and `unregister` calls, and
block-number progression (genesis balances and block heights are
arbitrary). -/
inductive Reachable (cfg : Config) (H : List Nat → Nat) :
    PalletState → Prop where
  | genesis (free : List (Nat × Nat)) (bn : Nat) :
      Reachable cfg H
        { artistOf := [], artistNameOf := [], free := free,
          reserved := [], blockNumber := bn }
  | register_step {st st1 : PalletState} (o : Nat) (n : List Nat)
      (al : Option (List Nat)) (gs : List Nat) (d : Option (List Nat))
      (as : List (List Nat)) :
      Reachable cfg H st →
      Pallet.register cfg H st o n al gs d as = .ok st1 →
      Reachable cfg H st1
  | update_step {st st1 : PalletState} (o : Nat) (data : UpdatableData) :
      Reachable cfg H st →
      Pallet.update cfg H st o data = .ok st1 →
      Reachable cfg H st1
  | unregister_step {st st1 : PalletState} (o : Nat) :
      Reachable cfg H st →
      Pallet.unregister cfg st o = .ok st1 →
      Reachable cfg H st1
  | newBlock {st : PalletState} (bn : Nat) :
      Reachable cfg H st →
      Reachable cfg H { st with blockNumber := bn }

/-- C10. The name index is never written: none of `register`, `update`,
`unregister` inserts into or removes from `ArtistNameOf`, so in every
state reachable by these operations alone the name index is empty, every
lookup by name misses, and `register`'s `NameUnavailable` check can never
fire. -/
theorem name_index_never_written (cfg : Config) (H : List Nat → Nat)
    (st : PalletState) (h : Reachable cfg H st) :
    st.artistNameOf = [] ∧
    (∀ n : List Nat, mapLookup st.artistNameOf n = none) ∧
    (∀ (o : Nat) (n : List Nat) (al : Option (List Nat)) (gs : List Nat)
       (d : Option (List Nat)) (as : List (List Nat)) (e : Err),
       Pallet.register cfg H st o n al gs d as = .error e →
       e ≠ .NameUnavailable) := by
  have hempty : st.artistNameOf = [] := by
    induction h with
    | genesis free bn => rfl
    | register_step o n al gs d as hr hstep ih =>
      rw [(register_ok_spec _ _ _ _ _ _ _ _ _ _ hstep).2.2.1]
      exact ih
    | update_step o data hr hstep ih =>
      rw [update_ok_nameIndex _ _ _ _ _ _ hstep]
      exact ih
    | unregister_step o hr hstep ih =>
      rw [unregister_ok_nameIndex _ _ _ _ hstep]
      exact ih
    | newBlock bn hr ih => exact ih
  refine ⟨hempty, ?_, ?_⟩
  · intro n
    rw [hempty]
    rfl
  · intro o n al gs d as e hreg
    refine register_error_ne_nameUnavailable cfg H st o n al gs d as e ?_
      hreg
    rw [hempty]
    rfl

/-- Witness for C10: a two-step reachable state (genesis, then owner 1
registers) has an empty name index. -/
theorem name_index_never_written_witness :
    stReg1.artistNameOf = [] :=
  (name_index_never_written demoCfg demoHash stReg1
    (Reachable.register_step 1 [10] none [] none []
      (Reachable.genesis [(1, 100), (2, 100)] 0) rfl)).1
